import Mathlib

/-!
# Verification of the TableCheck dashboard data pipeline

Shallow embedding of `src/tablecheck_dashboard_app.py`: a pandas-based
pipeline that loads a table of restaurant visit records and answers a
fixed set of aggregate queries (Q1–Q5b in the source, plus Q6 which the
specification describes).

A pandas DataFrame row may hold a null (NaN) in any column, so a row is
modelled with `Option` fields.  Pandas `groupby` semantics embedded here:
group keys are the distinct key tuples sorted ascending (`sort=True`
default), rows with a null in any grouping column are dropped
(`dropna=True` default), `Series.count()` counts non-null entries,
`Series.sum()` skips nulls, and `groupby(...).idxmax()` returns the
position of the first occurrence of the maximum within each group.
-/

/-- One row of the `tablecheck_takehome_data` table, with pandas-style
nullable columns. -/
structure RawRow where
  first_name : Option String
  restaurant_names : Option String
  food_names : Option String
  food_cost : Option ℚ
deriving DecidableEq, Repr

/-- A row is complete when all four columns are present (the spec's valid
Dataset invariant). -/
def RawRow.complete (r : RawRow) : Prop :=
  r.first_name.isSome ∧ r.restaurant_names.isSome ∧
    r.food_names.isSome ∧ r.food_cost.isSome

instance (r : RawRow) : Decidable r.complete := by
  unfold RawRow.complete; infer_instance

/-- Boolean lexicographic order on character lists; it kernel-reduces,
unlike `String.ltb`, and is proved below to agree with `List.lt`. -/
def charListLt : List Char → List Char → Bool
  | [], [] => false
  | [], _ :: _ => true
  | _ :: _, [] => false
  | a :: as, b :: bs =>
    if a < b then true else if b < a then false else charListLt as bs

/-- Boolean version of the standard lexicographic order on `String`. -/
def strLtb (a b : String) : Bool := charListLt a.data b.data

/-- Insert a string into a sorted duplicate-free list, keeping it sorted
and duplicate-free. -/
def insortD (a : String) : List String → List String
  | [] => [a]
  | b :: l =>
    if a = b then b :: l
    else if strLtb a b then a :: b :: l
    else b :: insortD a l

/-- The distinct elements of a list of strings, sorted ascending: the
order pandas `groupby` (with its default `sort=True`) enumerates group
keys in. -/
def sortDedup (l : List String) : List String :=
  l.foldr insortD []

/-- First element attaining the maximum of `val`, i.e. pandas `idxmax`:
on a tie the earlier element wins. -/
def firstArgmax [LinearOrder β] (val : α → β) : List α → Option α
  | [] => none
  | x :: xs =>
    match firstArgmax val xs with
    | none => some x
    | some y => if val x < val y then some y else some x

/-! ## The Dataset and its grouped views -/

/-- `(restaurant_names, food_names)` key pairs of the rows both of whose
grouping columns are present — the rows pandas keeps when grouping by
these two columns (`dropna=True`). -/
def foodPairs (d : List RawRow) : List (String × String) :=
  d.filterMap fun r =>
    match r.restaurant_names, r.food_names with
    | some a, some b => some (a, b)
    | _, _ => none

/-- `(first_name, restaurant_names)` key pairs of the rows both of whose
grouping columns are present. -/
def custPairs (d : List RawRow) : List (String × String) :=
  d.filterMap fun r =>
    match r.first_name, r.restaurant_names with
    | some a, some b => some (a, b)
    | _, _ => none

/-- `(restaurant_names, food_names)` keys together with the row's
`food_cost` (a null cost contributes `0`, as pandas `sum` skips NaN). -/
def foodCostPairs (d : List RawRow) : List ((String × String) × ℚ) :=
  d.filterMap fun r =>
    match r.restaurant_names, r.food_names with
    | some a, some b => some ((a, b), r.food_cost.getD 0)
    | _, _ => none

/-- Sum of the values attached to a given key. -/
def pairSum (l : List ((String × String) × ℚ)) (k : String × String) : ℚ :=
  ((l.filter fun x => x.1 == k).map fun x => x.2).sum

/-- A two-key grouped table in pandas key order: primary keys sorted
ascending and, within each, the secondary keys sorted ascending, each
group carrying its aggregate `val`.  This is the shape of
`df.groupby([k1, k2]).agg(...).reset_index()`. -/
def groupTable2 (ps : List (String × String)) (val : String × String → β) :
    List (String × String × β) :=
  (sortDedup (ps.map Prod.fst)).flatMap fun a =>
    (sortDedup ((ps.filter fun p => p.1 == a).map Prod.snd)).map fun b =>
      (a, b, val (a, b))

/-- `df.loc[df.groupby(key)[col].idxmax()]`: for each distinct `key`
(ascending, as pandas sorts the outer group keys), the first row of that
group attaining the maximal `val`. -/
def groupedIdxmax [LinearOrder β] (key : ρ → String) (val : ρ → β)
    (rows : List ρ) : List ρ :=
  (sortDedup (rows.map key)).filterMap fun a =>
    firstArgmax val (rows.filter fun x => key x == a)

/-! ## The queries of `tablecheck_dashboard_app.py` -/

/-- The hyphen-normalized restaurant key queried by Q1 and Q2. -/
def the_target : String := "the-restaurant-at-the-end-of-the-universe"

/-- Line 82: `raw_tablecheck_df[raw_tablecheck_df["restaurant_names"] ==
"the-restaurant-at-the-end-of-the-universe"]`.  A pandas `==` comparison
is `False` on NaN, so only rows whose restaurant is present and equal
are kept. -/
def rest_a_end_ot_uni_df (d : List RawRow) : List RawRow :=
  d.filter fun r => r.restaurant_names == some the_target

/-- Q1, line 87: `rest_a_end_ot_uni_df['restaurant_names'].count()` —
the number of non-null `restaurant_names` entries of the filtered
frame. -/
def q1_customer_traffic (d : List RawRow) : Nat :=
  ((rest_a_end_ot_uni_df d).filterMap fun r => r.restaurant_names).length

/-- Truncation toward zero, the semantics of Python's `int()` on a
number. -/
def ratTrunc (q : ℚ) : Int :=
  if 0 ≤ q then q.floor else -((-q).floor)

/-- Q2, line 95: `int(rest_a_end_ot_uni_df['food_cost'].sum())` — the
NaN-skipping sum of `food_cost` over the filtered frame, truncated to an
integer. -/
def q2_total_earnings (d : List RawRow) : Int :=
  ratTrunc (((rest_a_end_ot_uni_df d).map fun r => r.food_cost.getD 0).sum)

/-- Lines 104–109: `raw_tablecheck_df.groupby(['restaurant_names',
'food_names']).size().reset_index(name='order_count')`. -/
def food_counts_df (d : List RawRow) : List (String × String × Nat) :=
  groupTable2 (foodPairs d) fun k => (foodPairs d).count k

/-- Q3, lines 110–117: `food_counts_df.loc[food_counts_df.groupby
('restaurant_names')['order_count'].idxmax()]`. -/
def most_popular_dishes_df (d : List RawRow) : List (String × String × Nat) :=
  groupedIdxmax (fun x => x.1) (fun x => x.2.2) (food_counts_df d)

/-- Lines 148–153: `raw_tablecheck_df.groupby(["restaurant_names",
"food_names"]).agg(food_cost_sum=('food_cost', 'sum')).reset_index()`. -/
def food_sums_df (d : List RawRow) : List (String × String × ℚ) :=
  groupTable2 (foodPairs d) fun k => pairSum (foodCostPairs d) k

/-- Q4, lines 154–161: `food_sums_df.loc[food_sums_df.groupby
("restaurant_names")["food_cost_sum"].idxmax()]`. -/
def most_profitable_dishes_df (d : List RawRow) : List (String × String × ℚ) :=
  groupedIdxmax (fun x => x.1) (fun x => x.2.2) (food_sums_df d)

/-- Lines 182–187: `raw_tablecheck_df.groupby(["first_name",
"restaurant_names"]).size().reset_index(name='order_count')` — the Q5a
intermediate that the spec retains for reuse by Q6. -/
def customer_restarant_counts_df (d : List RawRow) :
    List (String × String × Nat) :=
  groupTable2 (custPairs d) fun k => (custPairs d).count k

/-- Q5a, lines 188–192: per restaurant (the *second* grouping key of the
intermediate), the first row attaining the maximal visit count. -/
def customer_restarant_max_count_df (d : List RawRow) :
    List (String × String × Nat) :=
  groupedIdxmax (fun x => x.2.1) (fun x => x.2.2)
    (customer_restarant_counts_df d)

/-- Lines 210–215: `raw_tablecheck_df.groupby("first_name").size()
.reset_index(name="total_visits")`. -/
def total_visits_df (d : List RawRow) : List (String × Nat) :=
  (sortDedup (d.filterMap fun r => r.first_name)).map fun n =>
    (n, (d.filterMap fun r => r.first_name).count n)

/-- The dataset-wide maximum of `total_visits`
(`total_visits_df["total_visits"].max()`); `0` stands for the NaN that
pandas returns on an empty frame, which the `==` filter below matches
nowhere, exactly as NaN does. -/
def maxTotalVisits (d : List RawRow) : Nat :=
  ((total_visits_df d).map fun x => x.2).foldr max 0

/-- Q5b, lines 217–219: `total_visits_df[total_visits_df["total_visits"]
== total_visits_df["total_visits"].max()]` — all rows tied at the
maximum are kept. -/
def customer_with_most_visits_df (d : List RawRow) : List (String × Nat) :=
  (total_visits_df d).filter fun x => x.2 == maxTotalVisits d

/-! ## Dataset construction (C5) -/

/-- A value of one cell of a fetched record. -/
inductive JsonValue where
  | str (s : String)
  | num (q : ℚ)
  | null
deriving DecidableEq, Repr

/-- One record returned by the record source: a JSON object, i.e. a list
of named fields. -/
abbrev SupabaseRecord : Type := List (String × JsonValue)

/-- The spec's load-error taxonomy (§7). -/
inductive LoadError where
  | SourceUnavailable
  | SchemaMismatch
  | TypeCoercionError
deriving DecidableEq, Repr

/-- Lines 50–66: `get_tablecheck_data` builds the Dataset as
`pd.DataFrame(get_supabase_data().data)`.  Constructing a DataFrame from
a list of records performs no column-presence check and no type
coercion: missing keys become NaN cells and non-numeric `food_cost`
values are kept as objects, so construction itself always succeeds. -/
def get_tablecheck_data (records : List SupabaseRecord) :
    Except LoadError (List SupabaseRecord) :=
  Except.ok records

/-! ## The sequential pipeline (C9) -/

/-- The results the script hands to the report sink. -/
structure PipelineOutput where
  q1 : Nat
  q2 : Int
  q3 : List (String × String × Nat)
  q4 : List (String × String × ℚ)
  q5a : List (String × String × Nat)
  q5b : List (String × Nat)
deriving DecidableEq, Repr

/-- One query step: read the shared frame, return the result together
with the frame the next step sees.  Every pandas operation used by the
script (`[]` filtering, `groupby`, `agg`, `loc`, `sort_values`,
`reset_index`) allocates a new frame, so each step hands the frame on
unchanged. -/
def runQ1 (d : List RawRow) : Nat × List RawRow := (q1_customer_traffic d, d)

def runQ2 (d : List RawRow) : Int × List RawRow := (q2_total_earnings d, d)

def runQ3 (d : List RawRow) : List (String × String × Nat) × List RawRow :=
  (most_popular_dishes_df d, d)

def runQ4 (d : List RawRow) : List (String × String × ℚ) × List RawRow :=
  (most_profitable_dishes_df d, d)

def runQ5a (d : List RawRow) : List (String × String × Nat) × List RawRow :=
  (customer_restarant_max_count_df d, d)

def runQ5b (d : List RawRow) : List (String × Nat) × List RawRow :=
  (customer_with_most_visits_df d, d)

/-- The script's top-to-bottom execution: Q1 through Q5b in order, each
reading the frame left by the previous step. -/
def runPipeline (d : List RawRow) : PipelineOutput × List RawRow :=
  let (r1, d1) := runQ1 d
  let (r2, d2) := runQ2 d1
  let (r3, d3) := runQ3 d2
  let (r4, d4) := runQ4 d3
  let (r5, d5) := runQ5a d4
  let (r6, d6) := runQ5b d5
  (⟨r1, r2, r3, r4, r5, r6⟩, d6)

/-! ## Q6 (C8) -/

/-- Character-wise lowercasing (ASCII case-normalization), the
executable counterpart of `String.toLower`. -/
def strToLower (s : String) : String := ⟨s.data.map Char.toLower⟩

/-- Modelled from the spec: Q6 ("compare the named customer Michael
against the global top single-restaurant visit count") is described in
§4.3 of the spec but absent from `src/`.  The named customer, compared
case-normalized. -/
def namedCustomer : String := "michael"

/-- Modelled from the spec: the named customer's maximum
single-restaurant visit count, computed by reusing Q5a's
`customer_restarant_counts_df` intermediate; `0` when the customer has
no rows. -/
def q6_named_max (d : List RawRow) : Nat :=
  (((customer_restarant_counts_df d).filter fun x =>
      strToLower x.1 == namedCustomer).map fun x => x.2.2).foldr max 0

/-- Modelled from the spec: the global top `(customer, restaurant)`
visit-count row, ties broken by first-encountered order (the same policy
as Q3/Q4). -/
def q6_global_top (d : List RawRow) : Option (String × String × Nat) :=
  firstArgmax (fun x => x.2.2) (customer_restarant_counts_df d)

/-- Modelled from the spec: Q6's output — a textual answer plus the
winning row (as a zero-or-one-row table). -/
def q6_answer (d : List RawRow) : String × List (String × String × Nat) :=
  match q6_global_top d with
  | none =>
    (namedCustomer ++ " has 0 visits and there is no top visitor.", [])
  | some w =>
    if strToLower w.1 == namedCustomer then
      ("No. " ++ namedCustomer ++ " is the top visitor.", [w])
    else
      (namedCustomer ++ " has " ++ toString (q6_named_max d) ++
        " visits at one restaurant; the top visitor is " ++ w.1 ++
        " with " ++ toString w.2.2 ++ ".", [w])

/-! ## Order bridge: `strLtb` computes the standard `String` order -/

theorem charListLt_iff_lex :
    ∀ as bs : List Char, charListLt as bs = true ↔ List.Lex (· < ·) as bs
  | [], [] => by
    simp only [charListLt, Bool.false_eq_true, false_iff]
    intro h; nomatch h
  | [], _ :: _ => by
    simp only [charListLt, true_iff]
    exact List.Lex.nil
  | _ :: _, [] => by
    simp only [charListLt, Bool.false_eq_true, false_iff]
    intro h; nomatch h
  | a :: as, b :: bs => by
    simp only [charListLt]
    by_cases hab : a < b
    · simp only [hab, if_true, true_iff]
      exact List.Lex.rel hab
    · by_cases hba : b < a
      · simp only [hab, hba, if_false, if_true, Bool.false_eq_true, false_iff]
        intro h
        cases h with
        | cons h => exact lt_irrefl a hba
        | rel h => exact hab h
      · have heq : a = b := le_antisymm (not_lt.mp hba) (not_lt.mp hab)
        subst heq
        simp only [hab, if_false, charListLt_iff_lex as bs, lt_irrefl]
        constructor
        · intro h; exact List.Lex.cons h
        · intro h
          cases h with
          | cons h => exact h
          | rel h => exact absurd h (lt_irrefl a)

theorem strLtb_iff {a b : String} : strLtb a b = true ↔ a < b := by
  rw [String.lt_iff_toList_lt]
  exact charListLt_iff_lex a.data b.data

theorem strLtb_false_iff {a b : String} : strLtb a b = false ↔ ¬a < b := by
  rw [← strLtb_iff]
  simp

/-! ## `insortD` and `sortDedup` -/

theorem mem_insortD {x a : String} :
    ∀ {l : List String}, x ∈ insortD a l ↔ x = a ∨ x ∈ l
  | [] => by simp [insortD]
  | b :: l => by
    simp only [insortD]
    split
    · next h => subst h; simp [or_comm, or_assoc]
    · split
      · simp
      · simp only [List.mem_cons, mem_insortD (l := l)]
        tauto

theorem pairwise_insortD {a : String} :
    ∀ {l : List String}, l.Pairwise (· < ·) →
      (insortD a l).Pairwise (· < ·)
  | [], _ => List.pairwise_singleton _ _
  | b :: l, h => by
    simp only [insortD]
    rcases List.pairwise_cons.mp h with ⟨hb, hl⟩
    split
    · exact h
    · next hne =>
      split
      · next hlt =>
        refine List.pairwise_cons.mpr ⟨?_, h⟩
        intro y hy
        rcases List.mem_cons.mp hy with rfl | hy
        · exact strLtb_iff.mp hlt
        · exact lt_trans (strLtb_iff.mp hlt) (hb y hy)
      · next hnlt =>
        have hba : b < a := by
          rcases lt_trichotomy a b with h1 | h1 | h1
          · exact absurd (strLtb_iff.mpr h1) (by simpa using hnlt)
          · exact absurd h1 hne
          · exact h1
        refine List.pairwise_cons.mpr ⟨?_, pairwise_insortD hl⟩
        intro y hy
        rcases mem_insortD.mp hy with rfl | hy
        · exact hba
        · exact hb y hy

theorem mem_sortDedup {x : String} :
    ∀ {l : List String}, x ∈ sortDedup l ↔ x ∈ l
  | [] => by simp [sortDedup]
  | a :: l => by
    simp only [sortDedup, List.foldr_cons] at *
    rw [show List.foldr insortD [] l = sortDedup l from rfl] at *
    rw [mem_insortD, mem_sortDedup (l := l), List.mem_cons]

theorem pairwise_sortDedup :
    ∀ l : List String, (sortDedup l).Pairwise (· < ·)
  | [] => List.Pairwise.nil
  | a :: l => pairwise_insortD (pairwise_sortDedup l)

theorem nodup_sortDedup (l : List String) : (sortDedup l).Nodup :=
  (pairwise_sortDedup l).imp ne_of_lt

/-- Two strictly sorted lists with the same members are equal. -/
theorem sortedLt_ext :
    ∀ {l l' : List String}, l.Pairwise (· < ·) → l'.Pairwise (· < ·) →
      (∀ x, x ∈ l ↔ x ∈ l') → l = l'
  | [], [], _, _, _ => rfl
  | [], b :: l', _, _, hm => by
    have := (hm b).mpr (List.mem_cons_self b l')
    simp at this
  | a :: l, [], _, _, hm => by
    have := (hm a).mp (List.mem_cons_self a l)
    simp at this
  | a :: l, b :: l', h, h', hm => by
    rcases List.pairwise_cons.mp h with ⟨ha, hl⟩
    rcases List.pairwise_cons.mp h' with ⟨hb, hl'⟩
    have hab : a = b := by
      rcases List.mem_cons.mp ((hm a).mp (List.mem_cons_self a l)) with h1 | h1
      · exact h1
      rcases List.mem_cons.mp ((hm b).mpr (List.mem_cons_self b l')) with h2 | h2
      · exact h2.symm
      · exact absurd (lt_trans (hb a h1) (ha b h2)) (lt_irrefl b)
    subst hab
    have : l = l' := by
      refine sortedLt_ext hl hl' fun x => ⟨fun hx => ?_, fun hx => ?_⟩
      · rcases List.mem_cons.mp ((hm x).mp (List.mem_cons_of_mem a hx)) with rfl | h1
        · exact absurd (ha x hx) (lt_irrefl x)
        · exact h1
      · rcases List.mem_cons.mp ((hm x).mpr (List.mem_cons_of_mem a hx)) with rfl | h1
        · exact absurd (hb x hx) (lt_irrefl x)
        · exact h1
    rw [this]

/-! ## `firstArgmax` -/

theorem firstArgmax_mem [LinearOrder β] {val : α → β} :
    ∀ {l : List α} {x : α}, firstArgmax val l = some x → x ∈ l
  | [], x, h => by simp [firstArgmax] at h
  | a :: l, x, h => by
    cases hl : firstArgmax val l with
    | none =>
      simp only [firstArgmax, hl] at h
      cases h; exact List.mem_cons_self a l
    | some y =>
      simp only [firstArgmax, hl] at h
      by_cases hxy : val a < val y
      · rw [if_pos hxy] at h
        cases h
        exact List.mem_cons_of_mem a (firstArgmax_mem hl)
      · rw [if_neg hxy] at h
        cases h; exact List.mem_cons_self a l

theorem firstArgmax_isSome [LinearOrder β] (val : α → β) :
    ∀ l : List α, l ≠ [] → (firstArgmax val l).isSome
  | [], h => absurd rfl h
  | a :: l, _ => by
    cases hl : firstArgmax val l with
    | none => simp [firstArgmax, hl]
    | some y =>
      simp only [firstArgmax, hl]
      by_cases hxy : val a < val y
      · rw [if_pos hxy]; rfl
      · rw [if_neg hxy]; rfl

/-- Decomposition: `firstArgmax` returns an element strictly above
everything before it and at least everything after it — exactly pandas
`idxmax` (first occurrence of the maximum). -/
theorem firstArgmax_split [LinearOrder β] {val : α → β} :
    ∀ {l : List α} {x : α}, firstArgmax val l = some x →
      ∃ l1 l2, l = l1 ++ x :: l2 ∧ (∀ y ∈ l1, val y < val x) ∧
        ∀ y ∈ l2, val y ≤ val x
  | [], x, h => by simp [firstArgmax] at h
  | a :: l, x, h => by
    cases hl : firstArgmax val l with
    | none =>
      simp only [firstArgmax, hl] at h
      cases h
      have : l = [] := by
        cases l with
        | nil => rfl
        | cons b l =>
          have h2 : (firstArgmax val (b :: l)).isSome :=
            firstArgmax_isSome val (b :: l) (by simp)
          rw [hl] at h2
          exact absurd h2 (by simp)
      subst this
      exact ⟨[], [], rfl, by simp, by simp⟩
    | some y =>
      simp only [firstArgmax, hl] at h
      rcases firstArgmax_split hl with ⟨l1, l2, hdec, hlt, hle⟩
      by_cases hxy : val a < val y
      · rw [if_pos hxy] at h
        cases h
        refine ⟨a :: l1, l2, by rw [hdec, List.cons_append], ?_, hle⟩
        intro z hz
        rcases List.mem_cons.mp hz with rfl | hz
        · exact hxy
        · exact hlt z hz
      · rw [if_neg hxy] at h
        cases h
        refine ⟨[], l, rfl, by simp, ?_⟩
        intro z hz
        have hyx : val y ≤ val a := not_lt.mp hxy
        rw [hdec] at hz
        rcases List.mem_append.mp hz with hz | hz
        · exact le_trans (le_of_lt (hlt z hz)) hyx
        · rcases List.mem_cons.mp hz with rfl | hz
          · exact hyx
          · exact le_trans (hle z hz) hyx

theorem firstArgmax_le [LinearOrder β] {val : α → β} {l : List α} {x : α}
    (h : firstArgmax val l = some x) : ∀ y ∈ l, val y ≤ val x := by
  rcases firstArgmax_split h with ⟨l1, l2, hdec, hlt, hle⟩
  intro y hy
  rw [hdec] at hy
  rcases List.mem_append.mp hy with hy | hy
  · exact le_of_lt (hlt y hy)
  · rcases List.mem_cons.mp hy with rfl | hy
    · exact le_rfl
    · exact hle y hy

/-! ## `filterMap` and `flatMap` helpers -/

/-- If `g` succeeds on everything in `L` and tags its output with the
input key, then `filterMap` keeps one output per input. -/
theorem filterMap_map_key {g : String → Option ρ} {key : ρ → String} :
    ∀ {L : List String}, (∀ a ∈ L, ∃ x, g a = some x ∧ key x = a) →
      (L.filterMap g).map key = L
  | [], _ => rfl
  | a :: L, h => by
    rcases h a (List.mem_cons_self a L) with ⟨x, hg, hk⟩
    rw [List.filterMap_cons, hg, List.map_cons, hk,
      filterMap_map_key fun b hb => h b (List.mem_cons_of_mem a hb)]

theorem filter_flatMap_eq_nil {key : ρ → String} {f : String → List ρ} {a : String}
    (hk : ∀ b, ∀ x ∈ f b, key x = b) :
    ∀ {as : List String}, a ∉ as →
      ((as.flatMap f).filter fun x => key x == a) = []
  | [], _ => rfl
  | b :: as, ha => by
    rw [List.flatMap_cons, List.filter_append,
      filter_flatMap_eq_nil hk fun h => ha (List.mem_cons_of_mem b h)]
    have : (f b).filter (fun x => key x == a) = [] := by
      rw [List.filter_eq_nil_iff]
      intro x hx
      simp only [beq_iff_eq, hk b x hx]
      exact fun h => ha (h ▸ List.mem_cons_self b as)
    rw [this, List.append_nil]

/-- Filtering a keyed concatenation of blocks down to one key yields
exactly that key's block. -/
theorem flatMap_filter_key {key : ρ → String} {f : String → List ρ} {a : String}
    (hk : ∀ b, ∀ x ∈ f b, key x = b) :
    ∀ {as : List String}, as.Nodup → a ∈ as →
      ((as.flatMap f).filter fun x => key x == a) = f a
  | [], _, ha => absurd ha (List.not_mem_nil a)
  | b :: as, hnd, ha => by
    rw [List.flatMap_cons, List.filter_append]
    rcases List.mem_cons.mp ha with rfl | ha
    · have h1 : (f a).filter (fun x => key x == a) = f a :=
        List.filter_eq_self.mpr fun x hx => by
          simp only [beq_iff_eq]; exact hk a x hx
      have h2 : ((as.flatMap f).filter fun x => key x == a) = [] :=
        filter_flatMap_eq_nil hk (List.nodup_cons.mp hnd).1
      rw [h1, h2, List.append_nil]
    · have hba : b ≠ a := fun h => (List.nodup_cons.mp hnd).1 (h ▸ ha)
      have h1 : (f b).filter (fun x => key x == a) = [] := by
        rw [List.filter_eq_nil_iff]
        intro x hx
        simp only [beq_iff_eq, hk b x hx]
        exact hba
      rw [h1, List.nil_append]
      exact flatMap_filter_key hk (List.nodup_cons.mp hnd).2 ha

/-! ## `foldr max` on `ℕ` -/

theorem le_foldrMax : ∀ {l : List Nat} {x : Nat}, x ∈ l → x ≤ l.foldr max 0
  | [], x, h => absurd h (List.not_mem_nil x)
  | a :: l, x, h => by
    rcases List.mem_cons.mp h with rfl | h
    · exact le_max_left _ _
    · exact le_trans (le_foldrMax h) (le_max_right _ _)

theorem foldrMax_le : ∀ {l : List Nat} {b : Nat}, (∀ x ∈ l, x ≤ b) →
      l.foldr max 0 ≤ b
  | [], b, _ => Nat.zero_le b
  | a :: l, b, h => by
    refine max_le (h a (List.mem_cons_self a l)) ?_
    exact foldrMax_le fun x hx => h x (List.mem_cons_of_mem a hx)

/-! ## `groupTable2` -/

theorem mem_groupTable2_iff {ps : List (String × String)}
    {val : String × String → β} {x : String × String × β} :
    x ∈ groupTable2 ps val ↔ ∃ a b, (a, b) ∈ ps ∧ x = (a, b, val (a, b)) := by
  constructor
  · intro hx
    rcases List.mem_flatMap.mp hx with ⟨a, _, hx⟩
    rcases List.mem_map.mp hx with ⟨b, hb, rfl⟩
    rcases List.mem_map.mp (mem_sortDedup.mp hb) with ⟨p, hp, rfl⟩
    rcases List.mem_filter.mp hp with ⟨hps, hfst⟩
    refine ⟨p.1, p.2, hps, ?_⟩
    rw [show p.1 = a from by simpa using hfst]
  · rintro ⟨a, b, hab, rfl⟩
    refine List.mem_flatMap.mpr ⟨a, mem_sortDedup.mpr ?_, ?_⟩
    · exact List.mem_map.mpr ⟨(a, b), hab, rfl⟩
    · refine List.mem_map.mpr ⟨b, mem_sortDedup.mpr ?_, rfl⟩
      exact List.mem_map.mpr ⟨(a, b), List.mem_filter.mpr ⟨hab, by simp⟩, rfl⟩

theorem fst_mem_of_mem_groupTable2 {ps : List (String × String)}
    {val : String × String → β} {x : String × String × β}
    (hx : x ∈ groupTable2 ps val) : x.1 ∈ ps.map Prod.fst := by
  rcases mem_groupTable2_iff.mp hx with ⟨a, b, hab, rfl⟩
  exact List.mem_map.mpr ⟨(a, b), hab, rfl⟩

/-- Restricting the grouped table to one primary key yields that key's
block: its secondary keys sorted ascending. -/
theorem groupTable2_block {ps : List (String × String)}
    {val : String × String → β} {a : String} (ha : a ∈ ps.map Prod.fst) :
    ((groupTable2 ps val).filter fun x => x.1 == a) =
      (sortDedup ((ps.filter fun p => p.1 == a).map Prod.snd)).map
        fun b => (a, b, val (a, b)) := by
  refine flatMap_filter_key ?_ (nodup_sortDedup _) (mem_sortDedup.mpr ha)
  intro b x hx
  rcases List.mem_map.mp hx with ⟨c, _, rfl⟩
  rfl

/-! ## `groupedIdxmax` -/

theorem groupedIdxmax_map_key [LinearOrder β] {key : ρ → String}
    {val : ρ → β} {rows : List ρ} :
    (groupedIdxmax key val rows).map key = sortDedup (rows.map key) := by
  apply filterMap_map_key
  intro a ha
  rcases List.mem_map.mp (mem_sortDedup.mp ha) with ⟨x, hx, rfl⟩
  have hne : (rows.filter fun y => key y == key x) ≠ [] :=
    List.ne_nil_of_mem (List.mem_filter.mpr ⟨hx, by simp⟩)
  obtain ⟨z, hz⟩ := Option.isSome_iff_exists.mp (firstArgmax_isSome val _ hne)
  exact ⟨z, hz, by simpa using (List.mem_filter.mp (firstArgmax_mem hz)).2⟩

theorem mem_groupedIdxmax [LinearOrder β] {key : ρ → String} {val : ρ → β}
    {rows : List ρ} {x : ρ} (hx : x ∈ groupedIdxmax key val rows) :
    x ∈ rows ∧ ∀ y ∈ rows, key y = key x → val y ≤ val x := by
  rcases List.mem_filterMap.mp hx with ⟨a, _, hfa⟩
  have hmem := firstArgmax_mem hfa
  have hkey : key x = a := by simpa using (List.mem_filter.mp hmem).2
  refine ⟨(List.mem_filter.mp hmem).1, ?_⟩
  intro y hy hky
  exact firstArgmax_le hfa y (List.mem_filter.mpr ⟨hy, by simp [hky, hkey]⟩)

theorem count_groupedIdxmax [LinearOrder β] {key : ρ → String} {val : ρ → β}
    {rows : List ρ} {a : String} (ha : a ∈ rows.map key) :
    ((groupedIdxmax key val rows).map key).count a = 1 := by
  rw [groupedIdxmax_map_key]
  exact List.count_eq_one_of_mem (nodup_sortDedup _) (mem_sortDedup.mpr ha)

theorem sorted_groupedIdxmax [LinearOrder β] {key : ρ → String} {val : ρ → β}
    {rows : List ρ} :
    ((groupedIdxmax key val rows).map key).Sorted (· ≤ ·) := by
  rw [groupedIdxmax_map_key]
  exact (pairwise_sortDedup _).imp le_of_lt

/-- Tie-break for the grouped-arg-max over a two-key grouped table keyed
on the primary component: the winner's secondary key is the least among
all secondary keys of that group attaining the winning aggregate —
"first encountered" in the sorted iteration order. -/
theorem groupedIdxmax_fst_tie [LinearOrder γ] {ps : List (String × String)}
    {val2 : String × String → γ} {x : String × String × γ}
    (hx : x ∈ groupedIdxmax (fun t => t.1) (fun t => t.2.2)
      (groupTable2 ps val2)) :
    ∀ b, (x.1, b) ∈ ps → val2 (x.1, b) = x.2.2 → x.2.1 ≤ b := by
  intro b hb hval
  rcases List.mem_filterMap.mp hx with ⟨a, _, hfa⟩
  have hkey : x.1 = a := by
    simpa using (List.mem_filter.mp (firstArgmax_mem hfa)).2
  subst hkey
  have hafst : x.1 ∈ ps.map Prod.fst := List.mem_map.mpr ⟨(x.1, b), hb, rfl⟩
  rw [groupTable2_block hafst] at hfa
  set L := (sortDedup ((ps.filter fun p => p.1 == x.1).map Prod.snd)).map
    fun c => (x.1, c, val2 (x.1, c)) with hL
  have hpw : L.Pairwise fun u v =>
      (u : String × String × γ).2.1 < (v : String × String × γ).2.1 := by
    rw [hL, List.pairwise_map]
    exact pairwise_sortDedup _
  have hyL : (x.1, b, val2 (x.1, b)) ∈ L := by
    rw [hL]
    refine List.mem_map.mpr ⟨b, mem_sortDedup.mpr ?_, rfl⟩
    exact List.mem_map.mpr ⟨(x.1, b), List.mem_filter.mpr ⟨hb, by simp⟩, rfl⟩
  rcases firstArgmax_split hfa with ⟨l1, l2, hdec, hlt, _⟩
  rw [hdec] at hyL hpw
  rcases List.mem_append.mp hyL with hy1 | hy2
  · have := hlt _ hy1
    simp only [hval] at this
    exact absurd this (lt_irrefl _)
  · rcases List.mem_cons.mp hy2 with heq | hy2
    · rw [show b = ((x.1, b, val2 (x.1, b)) : String × String × γ).2.1
        from rfl, heq]
    · have hxy := (List.pairwise_cons.mp
        (List.pairwise_append.mp hpw).2.1).1 _ hy2
      exact le_of_lt hxy

/-! ## Further helpers -/

theorem length_filterMap_of_isSome {f : α → Option γ} :
    ∀ {l : List α}, (∀ x ∈ l, (f x).isSome) →
      (l.filterMap f).length = l.length
  | [], _ => rfl
  | a :: l, h => by
    rcases Option.isSome_iff_exists.mp (h a (List.mem_cons_self a l)) with
      ⟨b, hb⟩
    rw [List.filterMap_cons, hb, List.length_cons, List.length_cons,
      length_filterMap_of_isSome fun x hx => h x (List.mem_cons_of_mem a hx)]

theorem filter_map_sum_eq_foldr (p : RawRow → Bool) (g : RawRow → ℚ) :
    ∀ d : List RawRow, ((d.filter p).map g).sum =
      d.foldr (fun r acc => if p r then g r + acc else acc) 0
  | [] => rfl
  | r :: d => by
    by_cases h : p r
    · rw [List.filter_cons_of_pos h, List.map_cons, List.sum_cons,
        List.foldr_cons, if_pos h, filter_map_sum_eq_foldr p g d]
    · rw [List.filter_cons_of_neg h, List.foldr_cons, if_neg h,
        filter_map_sum_eq_foldr p g d]

/-! ## The claims -/

/-- Claim C6: for every Dataset, Q1's result equals the number of rows
whose restaurant name matches the target string exactly, and zero
matching rows yields `0` rather than an error. -/
theorem q1_counts_matching_rows (d : List RawRow) :
    (q1_customer_traffic d =
      d.countP fun r => r.restaurant_names == some the_target) ∧
    ((∀ r ∈ d, r.restaurant_names ≠ some the_target) →
      q1_customer_traffic d = 0) := by
  have h1 : q1_customer_traffic d =
      d.countP fun r => r.restaurant_names == some the_target := by
    unfold q1_customer_traffic rest_a_end_ot_uni_df
    rw [List.countP_eq_length_filter]
    apply length_filterMap_of_isSome
    intro x hx
    have hsome := (List.mem_filter.mp hx).2
    rw [beq_iff_eq] at hsome
    rw [hsome]
    rfl
  refine ⟨h1, fun h => ?_⟩
  rw [h1, List.countP_eq_zero]
  intro r hr
  simpa using h r hr

/-- Claim C6 witness: the Q1 theorem applied to a concrete Dataset with
no matching rows. -/
theorem q1_counts_matching_rows_witness :
    (∀ r ∈ [(⟨some "Ann", some "elsewhere", some "pie", some 5⟩ : RawRow)],
      r.restaurant_names ≠ some the_target) ∧
    q1_customer_traffic
      [(⟨some "Ann", some "elsewhere", some "pie", some 5⟩ : RawRow)] = 0 :=
  ⟨by decide,
   (q1_counts_matching_rows
     [(⟨some "Ann", some "elsewhere", some "pie", some 5⟩ : RawRow)]).2
     (by decide)⟩

/-- Claim C7: for every Dataset, Q2's result equals the sum of
`food_cost` over the rows matching the target restaurant, truncated to
an integer, and the sum over an empty filtered set is `0`. -/
theorem q2_truncated_sum (d : List RawRow) :
    (q2_total_earnings d =
      ratTrunc (d.foldr (fun r acc =>
        if r.restaurant_names == some the_target
        then r.food_cost.getD 0 + acc else acc) 0)) ∧
    ((∀ r ∈ d, r.restaurant_names ≠ some the_target) →
      q2_total_earnings d = 0) := by
  constructor
  · unfold q2_total_earnings rest_a_end_ot_uni_df
    rw [filter_map_sum_eq_foldr]
  · intro h
    unfold q2_total_earnings rest_a_end_ot_uni_df
    have hf : (d.filter fun r => r.restaurant_names == some the_target)
        = [] := by
      rw [List.filter_eq_nil_iff]
      intro r hr
      simpa using h r hr
    rw [hf]
    decide

/-- Claim C7 witness: the Q2 theorem applied to a concrete Dataset with
no matching rows. -/
theorem q2_truncated_sum_witness :
    (∀ r ∈ [(⟨some "Ann", some "elsewhere", some "pie", some 5⟩ : RawRow)],
      r.restaurant_names ≠ some the_target) ∧
    q2_total_earnings
      [(⟨some "Ann", some "elsewhere", some "pie", some 5⟩ : RawRow)] = 0 :=
  ⟨by decide,
   (q2_truncated_sum
     [(⟨some "Ann", some "elsewhere", some "pie", some 5⟩ : RawRow)]).2
     (by decide)⟩

/-- Claim C4: once built, every query is total; on an empty Dataset Q1
returns 0, Q2 returns 0, and Q3, Q4, Q5a and Q5b return empty tables,
with no query raising an error. -/
theorem queries_total_on_empty_dataset :
    q1_customer_traffic [] = 0 ∧
    q2_total_earnings [] = 0 ∧
    most_popular_dishes_df [] = [] ∧
    most_profitable_dishes_df [] = [] ∧
    customer_restarant_max_count_df [] = [] ∧
    customer_with_most_visits_df [] = [] := by
  refine ⟨rfl, ?_, rfl, rfl, rfl, rfl⟩
  decide

/-- Claim C5 counterexample: Dataset construction
(`get_tablecheck_data`, lines 50–66) performs no validation at all — a
record set missing three of the four columns, and one whose `food_cost`
is a non-numeric string, are both accepted without `SchemaMismatch` or
`TypeCoercionError`. -/
theorem dataset_build_performs_no_validation :
    get_tablecheck_data [[("first_name", JsonValue.str "Alice")]] =
      Except.ok [[("first_name", JsonValue.str "Alice")]] ∧
    get_tablecheck_data [[("first_name", JsonValue.str "Alice"),
        ("restaurant_names", JsonValue.str "resto"),
        ("food_names", JsonValue.str "fries"),
        ("food_cost", JsonValue.str "not-a-number")]] =
      Except.ok [[("first_name", JsonValue.str "Alice"),
        ("restaurant_names", JsonValue.str "resto"),
        ("food_names", JsonValue.str "fries"),
        ("food_cost", JsonValue.str "not-a-number")]] :=
  ⟨rfl, rfl⟩

/-- Claim C5 amended: Dataset construction is total and verbatim — it
wraps the fetched records as-is, never fails, and detects neither
missing columns nor non-numeric `food_cost` values at load time. -/
theorem dataset_build_total_verbatim (records : List SupabaseRecord) :
    get_tablecheck_data records = Except.ok records := rfl

/-- Claim C9: every query is a stateless, pure function of the Dataset:
the pipeline leaves the Dataset unchanged, re-running it on the
resulting Dataset reproduces the same results, and the results are
exactly the per-query functions of the input Dataset. -/
theorem queries_stateless_pure (d : List RawRow) :
    (runPipeline d).2 = d ∧
    runPipeline ((runPipeline d).2) = runPipeline d ∧
    (runPipeline d).1 = ⟨q1_customer_traffic d, q2_total_earnings d,
      most_popular_dishes_df d, most_profitable_dishes_df d,
      customer_restarant_max_count_df d, customer_with_most_visits_df d⟩ :=
  ⟨rfl, rfl, rfl⟩

theorem mem_total_visits_iff {d : List RawRow} {name : String} {k : Nat} :
    (name, k) ∈ total_visits_df d ↔
      name ∈ (d.filterMap fun r => r.first_name) ∧
      k = (d.filterMap fun r => r.first_name).count name := by
  unfold total_visits_df
  constructor
  · intro h
    rcases List.mem_map.mp h with ⟨n, hn, heq⟩
    cases heq
    exact ⟨mem_sortDedup.mp hn, rfl⟩
  · rintro ⟨h, rfl⟩
    exact List.mem_map.mpr ⟨name, mem_sortDedup.mpr h, rfl⟩

/-- Claim C3: Q5b includes a customer if and only if their total visit
count (count of their rows across all restaurants) equals the
dataset-wide maximum total visit count; all tied customers appear. -/
theorem q5b_keeps_all_customers_at_max (d : List RawRow) (name : String)
    (k : Nat) :
    (name, k) ∈ customer_with_most_visits_df d ↔
      (name ∈ (d.filterMap fun r => r.first_name) ∧
       k = (d.filterMap fun r => r.first_name).count name ∧
       ∀ m ∈ d.filterMap fun r => r.first_name,
         (d.filterMap fun r => r.first_name).count m ≤ k) := by
  unfold customer_with_most_visits_df
  constructor
  · intro h
    rcases List.mem_filter.mp h with ⟨hmem, hmax⟩
    rcases mem_total_visits_iff.mp hmem with ⟨hname, hk⟩
    refine ⟨hname, hk, ?_⟩
    intro m hm
    have hkmax : k = maxTotalVisits d := by simpa using hmax
    rw [hkmax]
    unfold maxTotalVisits
    refine le_foldrMax (List.mem_map.mpr ?_)
    exact ⟨(m, (d.filterMap fun r => r.first_name).count m),
      mem_total_visits_iff.mpr ⟨hm, rfl⟩, rfl⟩
  · rintro ⟨hname, rfl, hmax⟩
    refine List.mem_filter.mpr ⟨mem_total_visits_iff.mpr ⟨hname, rfl⟩, ?_⟩
    have : maxTotalVisits d = (d.filterMap fun r => r.first_name).count name := by
      apply le_antisymm
      · unfold maxTotalVisits
        apply foldrMax_le
        intro x hx
        rcases List.mem_map.mp hx with ⟨p, hp, rfl⟩
        rcases mem_total_visits_iff.mp (show (p.1, p.2) ∈ total_visits_df d
          from hp) with ⟨hp1, hp2⟩
        rw [hp2]
        exact hmax p.1 hp1
      · unfold maxTotalVisits
        refine le_foldrMax (List.mem_map.mpr ?_)
        exact ⟨(name, (d.filterMap fun r => r.first_name).count name),
          mem_total_visits_iff.mpr ⟨hname, rfl⟩, rfl⟩
    simp [this]

theorem foodPairs_nil_of_null {r : RawRow}
    (h : r.restaurant_names = none ∨ r.food_names = none) :
    foodPairs [r] = [] := by
  unfold foodPairs
  cases h1 : r.restaurant_names <;> cases h2 : r.food_names <;>
    simp_all [List.filterMap]

theorem foodCostPairs_nil_of_null {r : RawRow}
    (h : r.restaurant_names = none ∨ r.food_names = none) :
    foodCostPairs [r] = [] := by
  unfold foodCostPairs
  cases h1 : r.restaurant_names <;> cases h2 : r.food_names <;>
    simp_all [List.filterMap]

theorem custPairs_nil_of_null {r : RawRow}
    (h : r.first_name = none ∨ r.restaurant_names = none) :
    custPairs [r] = [] := by
  unfold custPairs
  cases h1 : r.first_name <;> cases h2 : r.restaurant_names <;>
    simp_all [List.filterMap]

/-- Claim C10: a row whose grouping fields are null is silently excluded
from the grouped queries' counts and sums — appending such a row to any
Dataset leaves Q3, Q4, Q5a and Q5b unchanged, and no error is raised. -/
theorem null_grouping_rows_silently_dropped (d : List RawRow) (r : RawRow) :
    ((r.restaurant_names = none ∨ r.food_names = none) →
      most_popular_dishes_df (d ++ [r]) = most_popular_dishes_df d ∧
      most_profitable_dishes_df (d ++ [r]) = most_profitable_dishes_df d) ∧
    ((r.first_name = none ∨ r.restaurant_names = none) →
      customer_restarant_max_count_df (d ++ [r]) =
        customer_restarant_max_count_df d) ∧
    (r.first_name = none →
      customer_with_most_visits_df (d ++ [r]) =
        customer_with_most_visits_df d) := by
  refine ⟨fun h => ?_, fun h => ?_, fun h => ?_⟩
  · have hfp : foodPairs (d ++ [r]) = foodPairs d := by
      unfold foodPairs
      rw [List.filterMap_append]
      have := foodPairs_nil_of_null h
      unfold foodPairs at this
      rw [this, List.append_nil]
    have hfc : foodCostPairs (d ++ [r]) = foodCostPairs d := by
      unfold foodCostPairs
      rw [List.filterMap_append]
      have := foodCostPairs_nil_of_null h
      unfold foodCostPairs at this
      rw [this, List.append_nil]
    constructor
    · unfold most_popular_dishes_df food_counts_df
      rw [hfp]
    · unfold most_profitable_dishes_df food_sums_df
      rw [hfp, hfc]
  · have hcp : custPairs (d ++ [r]) = custPairs d := by
      unfold custPairs
      rw [List.filterMap_append]
      have := custPairs_nil_of_null h
      unfold custPairs at this
      rw [this, List.append_nil]
    unfold customer_restarant_max_count_df customer_restarant_counts_df
    rw [hcp]
  · have hnm : ((d ++ [r]).filterMap fun x => x.first_name) =
        d.filterMap fun x => x.first_name := by
      rw [List.filterMap_append]
      simp [List.filterMap, h]
    unfold customer_with_most_visits_df maxTotalVisits total_visits_df
    rw [hnm]

/-- Claim C10 witness: the theorem applied to a concrete Dataset and a
concrete all-null row, with every hypothesis discharged. -/
theorem null_grouping_rows_silently_dropped_witness :
    (most_popular_dishes_df
        ([⟨some "Ann", some "r1", some "pie", some 5⟩] ++
          [(⟨none, none, none, some 3⟩ : RawRow)]) =
      most_popular_dishes_df [⟨some "Ann", some "r1", some "pie", some 5⟩]) ∧
    (customer_restarant_max_count_df
        ([⟨some "Ann", some "r1", some "pie", some 5⟩] ++
          [(⟨none, none, none, some 3⟩ : RawRow)]) =
      customer_restarant_max_count_df
        [⟨some "Ann", some "r1", some "pie", some 5⟩]) ∧
    (customer_with_most_visits_df
        ([⟨some "Ann", some "r1", some "pie", some 5⟩] ++
          [(⟨none, none, none, some 3⟩ : RawRow)]) =
      customer_with_most_visits_df
        [⟨some "Ann", some "r1", some "pie", some 5⟩]) := by
  obtain ⟨h1, h2, h3⟩ := null_grouping_rows_silently_dropped
    [⟨some "Ann", some "r1", some "pie", some 5⟩]
    (⟨none, none, none, some 3⟩ : RawRow)
  exact ⟨(h1 (Or.inl rfl)).1, h2 (Or.inl rfl), h3 rfl⟩

theorem custPairs_fst {d : List RawRow} {p : String × String}
    (hp : p ∈ custPairs d) : ∃ row ∈ d, row.first_name = some p.1 := by
  rcases List.mem_filterMap.mp hp with ⟨row, hrow, hmk⟩
  refine ⟨row, hrow, ?_⟩
  cases h1 : row.first_name with
  | none => rw [h1] at hmk; simp at hmk
  | some a =>
    cases h2 : row.restaurant_names with
    | none => rw [h1, h2] at hmk; simp at hmk
    | some b =>
      rw [h1, h2] at hmk
      cases hmk
      rfl

/-- Claim C8 (Q6 is modelled from the spec, being absent from `src/`):
Q6 reuses Q5a's `customer_restarant_counts_df` intermediate to compute
the named customer's maximum single-restaurant visit count, which is `0`
rather than an error when the customer has no rows, and its output is a
textual answer together with the winning (global-top) row. -/
theorem q6_named_customer_zero_when_absent (d : List RawRow)
    (h : ∀ r ∈ d, Option.map strToLower r.first_name ≠
      some namedCustomer) :
    q6_named_max d = 0 ∧
    (q6_answer d).2 = (q6_global_top d).toList := by
  constructor
  · unfold q6_named_max
    have hf : ((customer_restarant_counts_df d).filter fun x =>
        strToLower x.1 == namedCustomer) = [] := by
      rw [List.filter_eq_nil_iff]
      intro x hx
      have hx1 : x.1 ∈ (custPairs d).map Prod.fst :=
        fst_mem_of_mem_groupTable2 hx
      rcases List.mem_map.mp hx1 with ⟨p, hp, hfst⟩
      rcases custPairs_fst hp with ⟨row, hrow, hname⟩
      have := h row hrow
      rw [hname, hfst] at this
      simp only [beq_iff_eq]
      exact fun hc => this (by simp [hc])
    rw [hf]
    rfl
  · unfold q6_answer
    cases hg : q6_global_top d with
    | none => rfl
    | some w =>
      dsimp only
      split <;> rfl

/-- Claim C8 witness: the Q6 theorem applied to a concrete Dataset that
does not contain the named customer. -/
theorem q6_named_customer_zero_when_absent_witness :
    (∀ r ∈ [(⟨some "Ann", some "r1", some "pie", some 5⟩ : RawRow)],
      Option.map strToLower r.first_name ≠ some namedCustomer) ∧
    q6_named_max [(⟨some "Ann", some "r1", some "pie", some 5⟩ : RawRow)]
      = 0 :=
  ⟨by decide,
   (q6_named_customer_zero_when_absent
     [(⟨some "Ann", some "r1", some "pie", some 5⟩ : RawRow)]
     (by decide)).1⟩

/-- Claim C1: for every valid Dataset and every restaurant present in
it, Q3 and Q4 each produce exactly one output row for that restaurant,
the selected food's aggregate (`order_count` for Q3, `food_cost_sum` for
Q4) is at least every other food's aggregate for that restaurant, and
the output rows are sorted by restaurant name ascending. -/
theorem q3_q4_one_row_max_sorted (d : List RawRow)
    (hd : ∀ r ∈ d, r.complete) (rn : String)
    (hrn : ∃ r ∈ d, r.restaurant_names = some rn) :
    ((most_popular_dishes_df d).map (fun x => x.1)).count rn = 1 ∧
    ((most_profitable_dishes_df d).map (fun x => x.1)).count rn = 1 ∧
    (∀ x ∈ most_popular_dishes_df d, x.1 = rn →
      ∀ f, (rn, f) ∈ foodPairs d →
        (foodPairs d).count (rn, f) ≤ x.2.2) ∧
    (∀ x ∈ most_profitable_dishes_df d, x.1 = rn →
      ∀ f, (rn, f) ∈ foodPairs d →
        pairSum (foodCostPairs d) (rn, f) ≤ x.2.2) ∧
    ((most_popular_dishes_df d).map (fun x => x.1)).Sorted (· ≤ ·) ∧
    ((most_profitable_dishes_df d).map (fun x => x.1)).Sorted (· ≤ ·) := by
  obtain ⟨r, hr, hrest⟩ := hrn
  obtain ⟨f0, hf0⟩ : ∃ f0, (rn, f0) ∈ foodPairs d := by
    obtain ⟨-, -, hfood, -⟩ := hd r hr
    rcases Option.isSome_iff_exists.mp hfood with ⟨f0, hf0⟩
    exact ⟨f0, List.mem_filterMap.mpr ⟨r, hr, by rw [hrest, hf0]⟩⟩
  have hcnt : rn ∈ (food_counts_df d).map fun x => x.1 :=
    List.mem_map.mpr ⟨(rn, f0, (foodPairs d).count (rn, f0)),
      mem_groupTable2_iff.mpr ⟨rn, f0, hf0, rfl⟩, rfl⟩
  have hsum : rn ∈ (food_sums_df d).map fun x => x.1 :=
    List.mem_map.mpr ⟨(rn, f0, pairSum (foodCostPairs d) (rn, f0)),
      mem_groupTable2_iff.mpr ⟨rn, f0, hf0, rfl⟩, rfl⟩
  refine ⟨count_groupedIdxmax hcnt, count_groupedIdxmax hsum,
    ?_, ?_, sorted_groupedIdxmax, sorted_groupedIdxmax⟩
  · intro x hx hx1 f hf
    refine (mem_groupedIdxmax hx).2 (rn, f, (foodPairs d).count (rn, f))
      (mem_groupTable2_iff.mpr ⟨rn, f, hf, rfl⟩) ?_
    rw [hx1]
  · intro x hx hx1 f hf
    refine (mem_groupedIdxmax hx).2 (rn, f, pairSum (foodCostPairs d) (rn, f))
      (mem_groupTable2_iff.mpr ⟨rn, f, hf, rfl⟩) ?_
    rw [hx1]

/-- Claim C1 witness: the Q3/Q4 theorem applied to a concrete complete
Dataset containing the restaurant `"r1"`. -/
theorem q3_q4_one_row_max_sorted_witness :
    (∀ r ∈ [(⟨some "Ann", some "r1", some "pie", some 5⟩ : RawRow),
            ⟨some "Bob", some "r1", some "tea", some 2⟩,
            ⟨some "Ann", some "r2", some "pie", some 4⟩],
      r.complete) ∧
    (∃ r ∈ [(⟨some "Ann", some "r1", some "pie", some 5⟩ : RawRow),
            ⟨some "Bob", some "r1", some "tea", some 2⟩,
            ⟨some "Ann", some "r2", some "pie", some 4⟩],
      r.restaurant_names = some "r1") ∧
    ((most_popular_dishes_df
        [(⟨some "Ann", some "r1", some "pie", some 5⟩ : RawRow),
         ⟨some "Bob", some "r1", some "tea", some 2⟩,
         ⟨some "Ann", some "r2", some "pie", some 4⟩]).map
      (fun x => x.1)).count "r1" = 1 :=
  ⟨by decide, by decide,
   (q3_q4_one_row_max_sorted
     [(⟨some "Ann", some "r1", some "pie", some 5⟩ : RawRow),
      ⟨some "Bob", some "r1", some "tea", some 2⟩,
      ⟨some "Ann", some "r2", some "pie", some 4⟩]
     (by decide) "r1" (by decide)).1⟩

/-- Claim C2: when multiple foods tie for the maximum order count within
one restaurant, Q3 returns exactly one row for that restaurant — never
several, never an error — and the selected row attains the tied
maximum: its count equals the tied foods' count and dominates every
food's count for that restaurant, so its food is itself one of the
tied-at-maximum foods, and it is the first of the grouped-and-sorted
iteration order — it precedes both named tied foods and every food
attaining the maximum. -/
theorem q3_tie_selects_first_in_order (d : List RawRow) (rn f1 f2 : String)
    (h12 : f1 ≠ f2) (hf1 : (rn, f1) ∈ foodPairs d)
    (hf2 : (rn, f2) ∈ foodPairs d)
    (hcnt : (foodPairs d).count (rn, f1) = (foodPairs d).count (rn, f2))
    (hmax : ∀ p ∈ foodPairs d, p.1 = rn →
      (foodPairs d).count p ≤ (foodPairs d).count (rn, f1)) :
    ((most_popular_dishes_df d).map (fun x => x.1)).count rn = 1 ∧
    ∀ x ∈ most_popular_dishes_df d, x.1 = rn →
      (rn, x.2.1) ∈ foodPairs d ∧
      x.2.2 = (foodPairs d).count (rn, x.2.1) ∧
      x.2.2 = (foodPairs d).count (rn, f1) ∧
      (∀ f, (rn, f) ∈ foodPairs d →
        (foodPairs d).count (rn, f) ≤ x.2.2) ∧
      x.2.1 ≤ f1 ∧ x.2.1 ≤ f2 ∧
      (∀ f, (rn, f) ∈ foodPairs d →
        (foodPairs d).count (rn, f) = x.2.2 → x.2.1 ≤ f) := by
  constructor
  · apply count_groupedIdxmax
    exact List.mem_map.mpr ⟨(rn, f1, (foodPairs d).count (rn, f1)),
      mem_groupTable2_iff.mpr ⟨rn, f1, hf1, rfl⟩, rfl⟩
  · intro x hx hx1
    rcases mem_groupTable2_iff.mp (mem_groupedIdxmax hx).1 with
      ⟨a, b, hab, hxeq⟩
    subst hxeq
    cases hx1
    have hdom : ∀ f, (a, f) ∈ foodPairs d →
        (foodPairs d).count (a, f) ≤ (foodPairs d).count (a, b) := by
      intro f hf
      exact (mem_groupedIdxmax hx).2 (a, f, (foodPairs d).count (a, f))
        (mem_groupTable2_iff.mpr ⟨a, f, hf, rfl⟩) rfl
    have heqmax : (foodPairs d).count (a, b) = (foodPairs d).count (a, f1) :=
      le_antisymm (hmax (a, b) hab rfl) (hdom f1 hf1)
    refine ⟨hab, rfl, heqmax, hdom, ?_, ?_, ?_⟩
    · exact groupedIdxmax_fst_tie hx f1 hf1 heqmax.symm
    · refine groupedIdxmax_fst_tie hx f2 hf2 ?_
      rw [← hcnt]
      exact heqmax.symm
    · intro f hf hcf
      exact groupedIdxmax_fst_tie hx f hf hcf

/-- Claim C2 witness: the tie-break theorem applied to a concrete
Dataset in which `"pie"` and `"tea"` tie at the maximum count for
restaurant `"r1"`; Q3 keeps exactly one row, the sorted-first food. -/
theorem q3_tie_selects_first_in_order_witness :
    ("pie" : String) ≠ "tea" ∧
    ("r1", "pie") ∈ foodPairs
      [(⟨some "Ann", some "r1", some "pie", some 5⟩ : RawRow),
       ⟨some "Bob", some "r1", some "tea", some 2⟩] ∧
    ((most_popular_dishes_df
        [(⟨some "Ann", some "r1", some "pie", some 5⟩ : RawRow),
         ⟨some "Bob", some "r1", some "tea", some 2⟩]).map
      (fun x => x.1)).count "r1" = 1 :=
  ⟨by decide, by decide,
   (q3_tie_selects_first_in_order
     [(⟨some "Ann", some "r1", some "pie", some 5⟩ : RawRow),
      ⟨some "Bob", some "r1", some "tea", some 2⟩]
     "r1" "pie" "tea" (by decide) (by decide) (by decide) (by decide)
     (by decide)).1⟩
